import Mathlib

/-!
Shallow embedding of `src/file/s3file/s3transport/transport.go` (package
`s3transport`), a Go `http.RoundTripper` specialized for S3.

Modelling conventions:
* `net.IP` is modelled by its string rendering (`IP := String`), so that
  `ip.String()` is the identity; equality of IPs is string equality.
* Go maps (`map[string]http.RoundTripper`, the expiring map) are modelled as
  association lists with first-match lookup and in-place update.
* Pointer identity of transports created by `factory()` is modelled by a
  numeric `tag` field together with a call counter: the n-th factory call
  yields `factory n`, so distinct calls can be told apart.
* `rand.Intn(len(ips))` is modelled by an extra parameter `randv`, the value
  the generator returns; the Go contract is `randv < len ips` when
  `len ips > 0`, and `rand.Intn 0` panics, which we model by the `none`
  outcome of `List.get?`.
* Go `error` values are modelled by `GoError`; `fmt.Errorf("...: %w", err)`
  is `GoError.wrapped "..." err`.
* Time (`time.Time`, `time.Duration`) is modelled by `Nat` nanoseconds.
-/

namespace S3Transport

/-- Models `net.IP` by its `String()` rendering. -/
abbrev IP := String

/-- The fields of `tls.Config` this package reads or writes.
`ServerName` is the certificate-verification name; the Go zero value
`&tls.Config{}` has `ServerName = ""`. -/
structure TLSConfig where
  ServerName : String
  deriving DecidableEq, Repr

/-- An `*http.Transport` as this package sees it: its `TLSClientConfig`
(possibly nil) plus a `tag` standing for all the rest of its state, used to
tell distinct factory-created instances apart. -/
structure Transport where
  TLSClientConfig : Option TLSConfig
  tag : Nat
  deriving DecidableEq, Repr

/-- The fields of `url.URL` this package reads or writes.  `Host` is the
Go `URL.Host`: the connection target, possibly of the form `"host:port"`. -/
structure URL where
  Scheme : String
  Host : String
  Path : String
  deriving DecidableEq, Repr

/-- A request body object; `closed` records whether `Close()` was called. -/
structure Body where
  tag : Nat
  closed : Bool
  deriving DecidableEq, Repr

/-- The fields of `http.Request` this package reads or writes.  `Host` is
the Go `Request.Host` (the logical Host header override); `body` is `nil`
or a body object. -/
structure Request where
  url : URL
  Host : String
  body : Option Body
  deriving DecidableEq, Repr

/-- Go `error` values: either a base error (from a collaborator) or a
wrapping via `fmt.Errorf("msg: %w", cause)`. -/
inductive GoError where
  | base (msg : String)
  | wrapped (msg : String) (cause : GoError)
  deriving DecidableEq, Repr

/-- An opaque `*http.Response`. -/
abbrev Response := Nat

/-! ### Go `url.URL.Hostname()` (net/url)

`Hostname` strips a valid optional `":port"` suffix (splitting at the last
colon) and removes square brackets around IPv6 literals, following the
stdlib `splitHostPort` that `req.URL.Hostname()` calls. -/

/-- Go `validOptionalPort` digit test: byte between `'0'` and `'9'`. -/
def isPortDigit (c : Char) : Bool :=
  decide ('0' ≤ c) && decide (c ≤ '9')

/-- Go `net/url.validOptionalPort`: empty, or `':'` followed by digits. -/
def validOptionalPort : List Char → Bool
  | [] => true
  | c :: rest => c == ':' && rest.all isPortDigit

/-- Index of the last `':'` in the list, scanning left to right and keeping
the latest hit (Go `strings.LastIndexByte(host, ':')`). -/
def lastColonAux : List Char → Nat → Option Nat → Option Nat
  | [], _, best => best
  | c :: rest, i, best => lastColonAux rest (i + 1) (if c == ':' then some i else best)

/-- Index of the last `':'`, or `none`. -/
def lastColon (cs : List Char) : Option Nat :=
  lastColonAux cs 0 none

/-- Go `net/url.splitHostPort` bracket removal on the host part. -/
def stripBrackets (host : List Char) : List Char :=
  if host.head? = some '[' ∧ host.getLast? = some ']' then (host.drop 1).dropLast
  else host

/-- The host component of Go `net/url.splitHostPort`. -/
def splitHostPortHost (cs : List Char) : List Char :=
  let host :=
    match lastColon cs with
    | some i => if validOptionalPort (cs.drop i) then cs.take i else cs
    | none => cs
  stripBrackets host

/-- Go `url.URL.Hostname()`: `u.Host` without any valid `":port"` suffix. -/
def URL.Hostname (u : URL) : String :=
  String.mk (splitHostPortHost u.Host.toList)

/-! ### Association lists, modelling Go maps -/

/-- Go map read `m[k]` (as `v, ok := m[k]`): first entry with the key. -/
def lookupA {α : Type} : List (String × α) → String → Option α
  | [], _ => none
  | (k, v) :: rest, key => if k = key then some v else lookupA rest key

/-- Go map write `m[k] = v`: replace the entry if the key is present,
otherwise append a new entry. -/
def setA {α : Type} : List (String × α) → String → α → List (String × α)
  | [], key, v => [(key, v)]
  | (k, w) :: rest, key, v =>
    if k = key then (key, v) :: rest else (k, w) :: setA rest key v

/-! ### The expiring IP cache

The file defining `expiringMap` (`AddAndGet`, `newExpiringMap`,
`runPeriodicForever`, `expireAfter`, `expireLoopEvery`) is part of this
package but is not among the given sources; only this caller is.  The
definitions below are therefore modelled from the spec. -/

/-- Modelled from the spec: a cache entry holds the deduplicated set of IP
addresses currently believed valid for its key, and the `lastSeen`
timestamp refreshed on every access.  (The source file defining the
expiring map is missing; only its caller `transport.go` is given.) -/
structure CacheEntry where
  value : List IP
  lastSeen : Nat
  deriving DecidableEq, Repr

/-- Modelled from the spec: the expiring map state is its key-to-entry
mapping.  The periodic sweep is not needed by the claims settled here. -/
structure ExpiringMap where
  elems : List (String × CacheEntry)
  deriving DecidableEq, Repr

/-- Insert one IP keeping first occurrences: no-op if already present. -/
def insertIP (acc : List IP) (ip : IP) : List IP :=
  if ip ∈ acc then acc else acc ++ [ip]

/-- Modelled from the spec: union with deduplication, keeping first
occurrences (the spec says `AddAndGet` "unions `newValues` into the entry
... deduplicates"). -/
def mergeUniqueIPs (dst src : List IP) : List IP :=
  (dst ++ src).foldl insertIP []

/-- Modelled from the spec: `AddAndGet(key, newValues)` unions `newValues`
into the entry for `key` (creating it if absent), deduplicates, refreshes
`lastSeen` to now, stores the entry back, and returns the full current
value set.  Returns the merged set together with the updated map. -/
def AddAndGet (m : ExpiringMap) (now : Nat) (key : String) (newValues : List IP) :
    List IP × ExpiringMap :=
  let old :=
    match lookupA m.elems key with
    | some e => e.value
    | none => []
  let merged := mergeUniqueIPs old newValues
  (merged, { elems := setA m.elems key { value := merged, lastSeen := now } })

/-- The current value set the cache holds for `key` (empty if absent). -/
def valuesOf (m : ExpiringMap) (key : String) : List IP :=
  match lookupA m.elems key with
  | some e => e.value
  | none => []

/-- Apply a sequence of `AddAndGet` calls (time, key, values), modelling
an arbitrary serialization of interleaved callers. -/
def applyAdds (m : ExpiringMap) : List (Nat × String × List IP) → ExpiringMap
  | [] => m
  | (now, k, vs) :: rest => applyAdds (AddAndGet m now k vs).2 rest

/-! ### The transport registry and dispatch core (`transport.go`) -/

/-- The mutable state of `T`: the host-to-transport registry `hostRTs`, the
number of factory invocations so far (modelling how many distinct transport
instances exist), and the expiring IP cache `hostIPs`. -/
structure TState where
  hostRTs : List (String × Transport)
  factoryCalls : Nat
  hostIPs : ExpiringMap
  deriving DecidableEq, Repr

/-- Go `New`: fresh `T` with an empty registry and an empty cache. -/
def newT : TState :=
  { hostRTs := [], factoryCalls := 0, hostIPs := { elems := [] } }

/-- Go `(*T).hostRoundTripper(host)`: return the stored transport for `host`
if present; otherwise call the factory, install a fresh `tls.Config` if the
returned transport has none, set `TLSClientConfig.ServerName = host`, store
the transport under `host`, and return it. -/
def hostRoundTripper (factory : Nat → Transport) (st : TState) (host : String) :
    Transport × TState :=
  match lookupA st.hostRTs host with
  | some rt => (rt, st)
  | none =>
    let tr0 := factory st.factoryCalls
    let cfg0 :=
      match tr0.TLSClientConfig with
      | none => ({ ServerName := "" } : TLSConfig)
      | some c => c
    let tr : Transport := { tr0 with TLSClientConfig := some { cfg0 with ServerName := host } }
    (tr,
      { st with
        hostRTs := setA st.hostRTs host tr
        factoryCalls := st.factoryCalls + 1 })

/-- Go `if req.Body != nil { _ = req.Body.Close() }`. -/
def closeBody (req : Request) : Request :=
  match req.body with
  | none => req
  | some b => { req with body := some { b with closed := true } }

/-- The observable result of one `RoundTrip` call: the returned
response-or-error (`none` models a panic in `rand.Intn(0)`), the request of the caller
as it stands after the call, the request handed to the delegated
transport (if any), and the updated shared state. -/
structure RTResult where
  outcome : Option (Except GoError Response)
  reqAfter : Request
  dispatched : Option Request
  state : TState
  deriving Repr

/-- Go `(*T).RoundTrip(req)`.  Here `resolver` models `defaultResolver.LookupIP`,
`underlying` models `RoundTrip` of the delegated transport, `randv` the
value of `rand.Intn(len(ips))`, `now` the current time seen by the cache.
Follows the source: take `req.URL.Hostname()`; resolve (on failure close
the body and return the wrapped error); merge into the cache with
`AddAndGet`; clone the request, set `Host` to the hostname and `URL.Host`
to the randomly selected IP string; delegate to `hostRoundTripper(host)`. -/
def roundTrip (resolver : String → Except GoError (List IP))
    (factory : Nat → Transport)
    (underlying : Transport → Request → Except GoError Response)
    (randv : Nat) (now : Nat) (st : TState) (req : Request) : RTResult :=
  let host := req.url.Hostname
  match resolver host with
  | .error err =>
    { outcome := some (.error (.wrapped "s3transport: lookup ip" err))
      reqAfter := closeBody req
      dispatched := none
      state := st }
  | .ok ips0 =>
    let merged := AddAndGet st.hostIPs now host ips0
    let ips := merged.1
    let st1 : TState := { st with hostIPs := merged.2 }
    match ips.get? randv with
    | none =>
      { outcome := none, reqAfter := req, dispatched := none, state := st1 }
    | some ip =>
      let hostReq : Request := { req with Host := host, url := { req.url with Host := ip } }
      let rts := hostRoundTripper factory st1 host
      { outcome := some (underlying rts.1 hostReq)
        reqAfter := req
        dispatched := some hostReq
        state := rts.2 }

/-! ### The default transport configuration (`httpTransport`)

The constants `expireAfter` and `expireLoopEvery` live in the missing
expiring-map file, and `stdDefaultTransport` timeouts come from net/http,
so all four appear as parameters. -/

/-- One nanosecond, the unit of Go `time.Duration`. -/
def nanosecond : Nat := 1

/-- Go `time.Second` in nanoseconds. -/
def second : Nat := 1000000000

/-- The `*http.Transport` fields set by the `httpTransport` literal
(dialer fields flattened). -/
structure HTTPTransportFields where
  DialTimeout : Nat
  DialKeepAlive : Nat
  ForceAttemptHTTP2 : Bool
  MaxIdleConns : Nat
  MaxIdleConnsPerHost : Nat
  IdleConnTimeout : Nat
  TLSClientConfig : Option TLSConfig
  TLSHandshakeTimeout : Nat
  ExpectContinueTimeout : Nat
  deriving DecidableEq, Repr

/-- The `httpTransport` package variable, translated field by field from
the Go literal; `expireAfter`, `expireLoopEvery` and the two timeouts
copied from `stdDefaultTransport` are parameters. -/
def httpTransport (expireAfter expireLoopEvery hsTimeout ecTimeout : Nat) :
    HTTPTransportFields :=
  { DialTimeout := 30 * second
    DialKeepAlive := 30 * second
    ForceAttemptHTTP2 := false
    MaxIdleConns := 200
    MaxIdleConnsPerHost := 4
    IdleConnTimeout := expireAfter + 2 * expireLoopEvery
    TLSClientConfig := some { ServerName := "" }
    TLSHandshakeTimeout := hsTimeout
    ExpectContinueTimeout := ecTimeout }

end S3Transport

namespace S3Transport

/-! ### Invariants and observation helpers -/

/-- Every transport stored in the registry map has a TLS client config whose
`ServerName` is the key it is stored under. -/
def tlsBound (st : TState) : Prop :=
  ∀ p ∈ st.hostRTs, ∃ cfg, p.2.TLSClientConfig = some cfg ∧ cfg.ServerName = p.1

/-- The registry holds exactly one entry per factory invocation and its keys
are pairwise distinct: at most one transport per hostname, and the factory
ran at most once per distinct hostname. -/
def registryCounts (st : TState) : Prop :=
  st.hostRTs.length = st.factoryCalls ∧ (st.hostRTs.map Prod.fst).Nodup

/-- The connection target of the request handed to the delegated transport
(empty if nothing was dispatched). -/
def dispatchTarget (r : RTResult) : String :=
  match r.dispatched with
  | some d => d.url.Host
  | none => ""

/-- A factory like `httpTransport.Clone`: each call yields a distinct
transport (distinguished by the call counter) with a fresh TLS config. -/
def cloneFactory (n : Nat) : Transport :=
  { TLSClientConfig := some { ServerName := "" }, tag := n }

/-- A factory whose transports carry no TLS config at all (`nil` in Go). -/
def nilTLSFactory (n : Nat) : Transport :=
  { TLSClientConfig := none, tag := n }

/-- A delegated transport behaviour for concrete runs: answers with the
tag of the transport. -/
def tagUnderlying (tr : Transport) (_ : Request) : Except GoError Response :=
  .ok tr.tag

/-- A resolver that always succeeds with one fixed address. -/
def oneIPResolver (_ : String) : Except GoError (List IP) :=
  .ok ["203.0.113.5"]

/-- A resolver that always fails. -/
def failResolver (_ : String) : Except GoError (List IP) :=
  .error (.base "no such host")

/-- A resolver that reports success with an empty address list. -/
def emptyResolver (_ : String) : Except GoError (List IP) :=
  .ok []

/-- A concrete request with an explicit port and an unclosed body. -/
def reqPort : Request :=
  { url := { Scheme := "https", Host := "bucket.example.com:9000", Path := "/k" }
    Host := ""
    body := some { tag := 7, closed := false } }

/-- The same target as `reqPort` on another port. -/
def reqPort2 : Request :=
  { url := { Scheme := "https", Host := "bucket.example.com:9001", Path := "/k" }
    Host := ""
    body := none }

/-- A concrete transport as stored for `"bucket.example.com"`. -/
def trC : Transport :=
  { TLSClientConfig := some { ServerName := "bucket.example.com" }, tag := 0 }

/-- A registry state already holding `trC` for `"bucket.example.com"`. -/
def stC : TState :=
  { hostRTs := [("bucket.example.com", trC)]
    factoryCalls := 1
    hostIPs := { elems := [] } }

/-! ### Lemmas about association lists -/

theorem lookupA_setA_self {α : Type} (l : List (String × α)) (k : String) (v : α) :
    lookupA (setA l k v) k = some v := by
  induction l with
  | nil => simp [setA, lookupA]
  | cons p rest ih =>
    obtain ⟨k1, v1⟩ := p
    by_cases h : k1 = k
    · simp [setA, h, lookupA]
    · simp [setA, h, lookupA, ih]

theorem lookupA_setA_of_ne {α : Type} (l : List (String × α)) (k k' : String) (v : α)
    (h : k' ≠ k) : lookupA (setA l k v) k' = lookupA l k' := by
  have hk : k ≠ k' := Ne.symm h
  induction l with
  | nil => simp [setA, lookupA, hk]
  | cons p rest ih =>
    obtain ⟨k1, v1⟩ := p
    by_cases h1 : k1 = k
    · subst h1
      simp [setA, lookupA, hk]
    · by_cases h2 : k1 = k'
      · simp [setA, h1, lookupA, h2, h]
      · simp [setA, h1, lookupA, h2, ih]

theorem mem_setA {α : Type} (l : List (String × α)) (k : String) (v : α)
    (p : String × α) (hp : p ∈ setA l k v) : p = (k, v) ∨ p ∈ l := by
  induction l with
  | nil => simpa [setA] using hp
  | cons q rest ih =>
    obtain ⟨k1, v1⟩ := q
    by_cases h : k1 = k
    · simp only [setA, if_pos h] at hp
      rcases List.mem_cons.mp hp with h1 | h1
      · exact Or.inl h1
      · exact Or.inr (List.mem_cons_of_mem _ h1)
    · simp only [setA, if_neg h] at hp
      rcases List.mem_cons.mp hp with h1 | h1
      · exact Or.inr (h1 ▸ List.mem_cons_self _ _)
      · rcases ih h1 with h2 | h2
        · exact Or.inl h2
        · exact Or.inr (List.mem_cons_of_mem _ h2)

theorem lookupA_mem {α : Type} (l : List (String × α)) (k : String) (v : α)
    (h : lookupA l k = some v) : (k, v) ∈ l := by
  induction l with
  | nil => simp [lookupA] at h
  | cons p rest ih =>
    obtain ⟨k1, v1⟩ := p
    by_cases h1 : k1 = k
    · subst h1
      simp [lookupA] at h
      subst h
      exact List.mem_cons_self _ _
    · simp only [lookupA, if_neg h1] at h
      exact List.mem_cons_of_mem _ (ih h)

theorem length_setA_of_none {α : Type} (l : List (String × α)) (k : String) (v : α)
    (h : lookupA l k = none) : (setA l k v).length = l.length + 1 := by
  induction l with
  | nil => simp [setA]
  | cons p rest ih =>
    obtain ⟨k1, v1⟩ := p
    by_cases h1 : k1 = k
    · simp [lookupA, h1] at h
    · simp only [lookupA, if_neg h1] at h
      simp [setA, h1, ih h]

theorem mapfst_setA_of_none {α : Type} (l : List (String × α)) (k : String) (v : α)
    (h : lookupA l k = none) :
    (setA l k v).map Prod.fst = l.map Prod.fst ++ [k] := by
  induction l with
  | nil => simp [setA]
  | cons p rest ih =>
    obtain ⟨k1, v1⟩ := p
    by_cases h1 : k1 = k
    · simp [lookupA, h1] at h
    · simp only [lookupA, if_neg h1] at h
      simp [setA, h1, ih h]

theorem lookupA_eq_none_of_not_mem_keys {α : Type} (l : List (String × α)) (k : String)
    (h : k ∉ l.map Prod.fst) : lookupA l k = none := by
  induction l with
  | nil => rfl
  | cons p rest ih =>
    obtain ⟨k1, v1⟩ := p
    simp only [List.map_cons, List.mem_cons] at h
    push_neg at h
    simp [lookupA, Ne.symm h.1, ih h.2]

/-! ### Lemmas about `mergeUniqueIPs` -/

theorem mem_insertIP (acc : List IP) (ip x : IP) :
    x ∈ insertIP acc ip ↔ x ∈ acc ∨ x = ip := by
  unfold insertIP
  by_cases h : ip ∈ acc
  · simp only [if_pos h]
    constructor
    · exact Or.inl
    · rintro (hx | rfl)
      · exact hx
      · exact h
  · simp [if_neg h]

theorem nodup_insertIP (acc : List IP) (ip : IP) (h : acc.Nodup) :
    (insertIP acc ip).Nodup := by
  unfold insertIP
  by_cases hm : ip ∈ acc
  · simpa [if_pos hm]
  · rw [if_neg hm]
    refine List.Nodup.append h (List.nodup_singleton ip) ?hd
    intro a ha hb
    rw [List.mem_singleton] at hb
    exact hm (hb ▸ ha)

theorem mem_foldl_insertIP (l acc : List IP) (x : IP) :
    x ∈ l.foldl insertIP acc ↔ x ∈ acc ∨ x ∈ l := by
  induction l generalizing acc with
  | nil => simp
  | cons ip rest ih =>
    simp only [List.foldl_cons, ih, mem_insertIP, List.mem_cons]
    tauto

theorem nodup_foldl_insertIP (l acc : List IP) (h : acc.Nodup) :
    (l.foldl insertIP acc).Nodup := by
  induction l generalizing acc with
  | nil => simpa
  | cons ip rest ih => exact ih _ (nodup_insertIP _ _ h)

theorem mem_mergeUniqueIPs (dst src : List IP) (x : IP) :
    x ∈ mergeUniqueIPs dst src ↔ x ∈ dst ∨ x ∈ src := by
  unfold mergeUniqueIPs
  rw [mem_foldl_insertIP]
  simp

theorem nodup_mergeUniqueIPs (dst src : List IP) : (mergeUniqueIPs dst src).Nodup :=
  nodup_foldl_insertIP _ _ List.nodup_nil

/-! ### Lemmas about the expiring cache -/

theorem AddAndGet_fst (m : ExpiringMap) (now : Nat) (k : String) (vs : List IP) :
    (AddAndGet m now k vs).1 = mergeUniqueIPs (valuesOf m k) vs := by
  unfold AddAndGet valuesOf
  cases lookupA m.elems k <;> rfl

theorem valuesOf_AddAndGet_self (m : ExpiringMap) (now : Nat) (k : String) (vs : List IP) :
    valuesOf (AddAndGet m now k vs).2 k = mergeUniqueIPs (valuesOf m k) vs := by
  unfold AddAndGet valuesOf
  cases lookupA m.elems k <;> simp [lookupA_setA_self]

theorem mem_valuesOf_AddAndGet (m : ExpiringMap) (now : Nat) (key k : String)
    (vs : List IP) (x : IP) (hx : x ∈ valuesOf m k) :
    x ∈ valuesOf (AddAndGet m now key vs).2 k := by
  by_cases hk : k = key
  · subst hk
    rw [valuesOf_AddAndGet_self, mem_mergeUniqueIPs]
    exact Or.inl hx
  · unfold AddAndGet
    unfold valuesOf at hx ⊢
    rw [lookupA_setA_of_ne _ _ _ _ hk]
    exact hx

theorem mem_valuesOf_applyAdds (ops : List (Nat × String × List IP)) (m : ExpiringMap)
    (k : String) (x : IP) (hx : x ∈ valuesOf m k) :
    x ∈ valuesOf (applyAdds m ops) k := by
  induction ops generalizing m with
  | nil => exact hx
  | cons op rest ih =>
    obtain ⟨now, key, vs⟩ := op
    exact ih _ (mem_valuesOf_AddAndGet m now key k vs x hx)

end S3Transport

namespace S3Transport

/-! ### Further association-list lemmas -/

theorem length_setA_of_some {α : Type} (l : List (String × α)) (k : String) (v w : α)
    (h : lookupA l k = some w) : (setA l k v).length = l.length := by
  induction l with
  | nil => simp [lookupA] at h
  | cons p rest ih =>
    obtain ⟨k1, v1⟩ := p
    by_cases h1 : k1 = k
    · simp [setA, h1]
    · simp only [lookupA, if_neg h1] at h
      simp [setA, h1, ih h]

theorem not_mem_keys_of_lookupA_none {α : Type} (l : List (String × α)) (k : String)
    (h : lookupA l k = none) : k ∉ l.map Prod.fst := by
  induction l with
  | nil => simp
  | cons p rest ih =>
    obtain ⟨k1, v1⟩ := p
    by_cases h1 : k1 = k
    · simp [lookupA, h1] at h
    · simp only [lookupA, if_neg h1] at h
      simp only [List.map_cons, List.mem_cons]
      push_neg
      exact ⟨fun hh => h1 hh.symm, ih h⟩

/-! ### Lemmas about `hostRoundTripper` -/

theorem hostRoundTripper_of_lookup (factory : Nat → Transport) (st : TState)
    (host : String) (rt : Transport) (h : lookupA st.hostRTs host = some rt) :
    hostRoundTripper factory st host = (rt, st) := by
  simp [hostRoundTripper, h]

theorem hostRoundTripper_of_none (factory : Nat → Transport) (st : TState)
    (host : String) (h : lookupA st.hostRTs host = none) :
    hostRoundTripper factory st host =
      (let tr0 := factory st.factoryCalls
       let cfg0 :=
         match tr0.TLSClientConfig with
         | none => ({ ServerName := "" } : TLSConfig)
         | some c => c
       let tr : Transport := { tr0 with TLSClientConfig := some { cfg0 with ServerName := host } }
       (tr,
         { st with
           hostRTs := setA st.hostRTs host tr
           factoryCalls := st.factoryCalls + 1 })) := by
  simp [hostRoundTripper, h]

theorem hostRoundTripper_lookup_self (factory : Nat → Transport) (st : TState)
    (host : String) :
    lookupA (hostRoundTripper factory st host).2.hostRTs host =
      some (hostRoundTripper factory st host).1 := by
  cases h : lookupA st.hostRTs host with
  | some rt => rw [hostRoundTripper_of_lookup factory st host rt h]; exact h
  | none =>
    rw [hostRoundTripper_of_none factory st host h]
    exact lookupA_setA_self _ _ _

theorem hostRoundTripper_hostIPs (factory : Nat → Transport) (st : TState)
    (host : String) : (hostRoundTripper factory st host).2.hostIPs = st.hostIPs := by
  cases h : lookupA st.hostRTs host with
  | some rt => rw [hostRoundTripper_of_lookup factory st host rt h]
  | none => rw [hostRoundTripper_of_none factory st host h]

/-! ### Characterizations of the two `roundTrip` completion paths -/

theorem roundTrip_err (resolver : String → Except GoError (List IP))
    (factory : Nat → Transport)
    (underlying : Transport → Request → Except GoError Response)
    (randv now : Nat) (st : TState) (req : Request) (e : GoError)
    (hres : resolver req.url.Hostname = .error e) :
    roundTrip resolver factory underlying randv now st req =
      { outcome := some (.error (.wrapped "s3transport: lookup ip" e))
        reqAfter := closeBody req
        dispatched := none
        state := st } := by
  simp [roundTrip, hres]

theorem roundTrip_ok (resolver : String → Except GoError (List IP))
    (factory : Nat → Transport)
    (underlying : Transport → Request → Except GoError Response)
    (randv now : Nat) (st : TState) (req : Request) (ips0 : List IP) (ip : IP)
    (hres : resolver req.url.Hostname = .ok ips0)
    (hip : (AddAndGet st.hostIPs now req.url.Hostname ips0).1.get? randv = some ip) :
    roundTrip resolver factory underlying randv now st req =
      { outcome := some (underlying
          (hostRoundTripper factory
            { hostRTs := st.hostRTs, factoryCalls := st.factoryCalls,
              hostIPs := (AddAndGet st.hostIPs now req.url.Hostname ips0).2 }
            req.url.Hostname).1
          { url := { Scheme := req.url.Scheme, Host := ip, Path := req.url.Path }
            Host := req.url.Hostname
            body := req.body })
        reqAfter := req
        dispatched := some
          { url := { Scheme := req.url.Scheme, Host := ip, Path := req.url.Path }
            Host := req.url.Hostname
            body := req.body }
        state := (hostRoundTripper factory
            { hostRTs := st.hostRTs, factoryCalls := st.factoryCalls,
              hostIPs := (AddAndGet st.hostIPs now req.url.Hostname ips0).2 }
            req.url.Hostname).2 } := by
  have hip2 : (AddAndGet st.hostIPs now req.url.Hostname ips0).1[randv]? = some ip := by
    rw [← List.get?_eq_getElem?]
    exact hip
  simp [roundTrip, hip2, hres]

theorem roundTrip_empty_panic (resolver : String → Except GoError (List IP))
    (factory : Nat → Transport)
    (underlying : Transport → Request → Except GoError Response)
    (randv now : Nat) (st : TState) (req : Request) (ips0 : List IP)
    (hres : resolver req.url.Hostname = .ok ips0)
    (hemp : (AddAndGet st.hostIPs now req.url.Hostname ips0).1 = []) :
    (roundTrip resolver factory underlying randv now st req).outcome = none := by
  simp [roundTrip, hres, hemp]

end S3Transport

namespace S3Transport

/-! ### Lemmas about `URL.Hostname` port stripping -/

theorem lastColonAux_append (xs ys : List Char) (i : Nat) (best : Option Nat) :
    lastColonAux (xs ++ ys) i best =
      lastColonAux ys (i + xs.length) (lastColonAux xs i best) := by
  induction xs generalizing i best with
  | nil => simp [lastColonAux]
  | cons c rest ih =>
    simp only [List.cons_append, lastColonAux, List.append_eq, List.length_cons, ih]
    have harith : i + 1 + rest.length = i + (rest.length + 1) := by omega
    rw [harith]

theorem lastColonAux_no_colon (xs : List Char) (i : Nat) (best : Option Nat)
    (h : ∀ c ∈ xs, (c == ':') = false) : lastColonAux xs i best = best := by
  induction xs generalizing i best with
  | nil => rfl
  | cons c rest ih =>
    simp only [lastColonAux, h c (List.mem_cons_self _ _), if_false, Bool.false_eq_true]
    exact ih _ _ (fun d hd => h d (List.mem_cons_of_mem _ hd))

theorem beq_colon_false_of_ne (c : Char) (h : c ≠ ':') : (c == ':') = false :=
  beq_eq_false_iff_ne.mpr h

theorem no_colon_of_digits (ds : List Char) (hd : ds.all isPortDigit = true) :
    ∀ c ∈ ds, (c == ':') = false := by
  intro c hc
  have h1 := List.all_eq_true.mp hd c hc
  cases hbe : (c == ':') with
  | false => rfl
  | true =>
    have hcc : c = ':' := eq_of_beq hbe
    subst hcc
    have : isPortDigit ':' = false := by decide
    rw [this] at h1
    cases h1

theorem lastColon_append_port (s ds : List Char)
    (hs : ∀ c ∈ s, (c == ':') = false) (hd : ∀ c ∈ ds, (c == ':') = false) :
    lastColon (s ++ ':' :: ds) = some s.length := by
  unfold lastColon
  rw [lastColonAux_append, lastColonAux_no_colon s 0 none hs]
  simp only [lastColonAux, Nat.zero_add]
  rw [lastColonAux_no_colon ds _ _ hd]
  simp

theorem splitHostPortHost_strip (s ds : List Char)
    (hs : ∀ c ∈ s, (c == ':') = false) (hd : ds.all isPortDigit = true)
    (hb : ¬(s.head? = some '[' ∧ s.getLast? = some ']')) :
    splitHostPortHost (s ++ ':' :: ds) = s := by
  unfold splitHostPortHost
  rw [lastColon_append_port s ds hs (no_colon_of_digits ds hd)]
  have hdrop : (s ++ ':' :: ds).drop s.length = ':' :: ds := List.drop_left s _
  have htake : (s ++ ':' :: ds).take s.length = s := List.take_left s _
  simp only [hdrop, htake]
  have hvp : validOptionalPort (':' :: ds) = true := by
    simp [validOptionalPort, hd]
  simp only [hvp, if_true]
  unfold stripBrackets
  rw [if_neg hb]

theorem Hostname_strip_port (u : URL) (s ds : List Char)
    (hu : u.Host.data = s ++ ':' :: ds)
    (hs : ∀ c ∈ s, (c == ':') = false) (hd : ds.all isPortDigit = true)
    (hb : ¬(s.head? = some '[' ∧ s.getLast? = some ']')) :
    u.Hostname = String.mk s := by
  unfold URL.Hostname
  have : u.Host.toList = s ++ ':' :: ds := hu
  rw [this, splitHostPortHost_strip s ds hs hd hb]

end S3Transport

namespace S3Transport

/-- C1: the transport produced by the registry lookup `hostRoundTripper h`
has its TLS certificate-verification `ServerName` set to `h` — installing a
fresh config first when the factory returned one with no TLS config — and
every transport stored in the registry map keeps `ServerName` equal to the
key it is stored under (state invariant preserved by every lookup), even
though requests dispatched through it target a numeric IP. -/
theorem tls_identity_invariant (factory : Nat → Transport) (st : TState) (host : String)
    (hinv : tlsBound st) :
    (∃ cfg, (hostRoundTripper factory st host).1.TLSClientConfig = some cfg ∧
        cfg.ServerName = host) ∧
    tlsBound (hostRoundTripper factory st host).2 := by
  cases hlk : lookupA st.hostRTs host with
  | some rt =>
    rw [hostRoundTripper_of_lookup factory st host rt hlk]
    refine ⟨?_, hinv⟩
    obtain ⟨cfg, hc, hn⟩ := hinv (host, rt) (lookupA_mem _ _ _ hlk)
    exact ⟨cfg, hc, hn⟩
  | none =>
    simp only [hostRoundTripper, hlk]
    refine ⟨⟨{ ServerName := host }, rfl, rfl⟩, ?_⟩
    intro p hp
    rcases mem_setA _ _ _ _ hp with h1 | h1
    · subst h1
      exact ⟨{ ServerName := host }, rfl, rfl⟩
    · exact hinv p h1

/-- Witness for C1: a factory returning transports with nil TLS config,
looked up from the fresh state, yields `ServerName = "bucket.example.com"`. -/
theorem tls_identity_invariant_witness :
    (∃ cfg, (hostRoundTripper nilTLSFactory newT "bucket.example.com").1.TLSClientConfig =
        some cfg ∧ cfg.ServerName = "bucket.example.com") ∧
    tlsBound (hostRoundTripper nilTLSFactory newT "bucket.example.com").2 :=
  tls_identity_invariant nilTLSFactory newT "bucket.example.com"
    (by intro p hp; simp [newT] at hp)

/-- C2: the registry lookup returns the already-stored transport when one
exists, leaving the state untouched; otherwise it creates one transport,
stores it, and returns it, so a second sequential lookup returns the
identical instance and the identical state; previously stored transports
are never replaced; the entry count always equals the factory-invocation
count with pairwise-distinct keys (so at most one transport is ever stored
per distinct hostname and the factory runs at most once per distinct
hostname over any run starting from `newT`, which satisfies the counting
invariant). -/
theorem registry_get_or_create (factory : Nat → Transport) (st : TState) (host : String) :
    (∀ rt, lookupA st.hostRTs host = some rt →
      hostRoundTripper factory st host = (rt, st)) ∧
    lookupA (hostRoundTripper factory st host).2.hostRTs host =
      some (hostRoundTripper factory st host).1 ∧
    hostRoundTripper factory (hostRoundTripper factory st host).2 host =
      ((hostRoundTripper factory st host).1, (hostRoundTripper factory st host).2) ∧
    (∀ h2 rt2, lookupA st.hostRTs h2 = some rt2 →
      lookupA (hostRoundTripper factory st host).2.hostRTs h2 = some rt2) ∧
    (registryCounts st → registryCounts (hostRoundTripper factory st host).2) ∧
    registryCounts newT := by
  refine ⟨?_, hostRoundTripper_lookup_self factory st host, ?_, ?_, ?_, ?_⟩
  · intro rt h
    exact hostRoundTripper_of_lookup factory st host rt h
  · exact hostRoundTripper_of_lookup factory _ host _
      (hostRoundTripper_lookup_self factory st host)
  · intro h2 rt2 h
    cases hlk : lookupA st.hostRTs host with
    | some rt =>
      rw [hostRoundTripper_of_lookup factory st host rt hlk]
      exact h
    | none =>
      simp only [hostRoundTripper, hlk]
      by_cases hh : h2 = host
      · rw [hh] at h
        rw [hlk] at h
        cases h
      · rw [lookupA_setA_of_ne _ _ _ _ hh]
        exact h
  · rintro ⟨hlen, hnd⟩
    cases hlk : lookupA st.hostRTs host with
    | some rt =>
      rw [hostRoundTripper_of_lookup factory st host rt hlk]
      exact ⟨hlen, hnd⟩
    | none =>
      simp only [hostRoundTripper, hlk]
      constructor
      · rw [length_setA_of_none _ _ _ hlk, hlen]
      · rw [mapfst_setA_of_none _ _ _ hlk]
        refine List.Nodup.append hnd (List.nodup_singleton host) ?_
        intro a ha hb
        rw [List.mem_singleton] at hb
        exact (not_mem_keys_of_lookupA_none _ _ hlk) (hb ▸ ha)
  · refine ⟨rfl, ?_⟩
    simp [newT]

/-- Witness for C2: looking up a hostname whose transport is already stored
returns exactly that transport and leaves the state unchanged. -/
theorem registry_get_or_create_witness :
    hostRoundTripper cloneFactory stC "bucket.example.com" = (trC, stC) ∧
    registryCounts newT :=
  ⟨(registry_get_or_create cloneFactory stC "bucket.example.com").1 trC (by decide),
   (registry_get_or_create cloneFactory stC "bucket.example.com").2.2.2.2.2⟩

/-- C3: when resolution of the request hostname fails, `RoundTrip` returns
the wrapped resolution error and no response, dispatches nothing, leaves
the shared state exactly unchanged (no pooled transport created, cache not
modified), and a non-nil request body is closed before returning. -/
theorem resolution_failure_no_side_effects
    (resolver : String → Except GoError (List IP)) (factory : Nat → Transport)
    (underlying : Transport → Request → Except GoError Response)
    (randv now : Nat) (st : TState) (req : Request) (e : GoError)
    (hres : resolver req.url.Hostname = .error e) :
    (roundTrip resolver factory underlying randv now st req).outcome =
      some (.error (.wrapped "s3transport: lookup ip" e)) ∧
    (roundTrip resolver factory underlying randv now st req).dispatched = none ∧
    (roundTrip resolver factory underlying randv now st req).state = st ∧
    (∀ b, req.body = some b →
      (roundTrip resolver factory underlying randv now st req).reqAfter.body =
        some { b with closed := true }) := by
  rw [roundTrip_err resolver factory underlying randv now st req e hres]
  refine ⟨rfl, rfl, rfl, ?_⟩
  intro b hb
  simp [closeBody, hb]

/-- Witness for C3: a failing resolver on a request with an open body gives
an untouched state and a closed body. -/
theorem resolution_failure_no_side_effects_witness :
    (roundTrip failResolver cloneFactory tagUnderlying 0 0 newT reqPort).state = newT ∧
    (roundTrip failResolver cloneFactory tagUnderlying 0 0 newT reqPort).reqAfter.body =
      some { tag := 7, closed := true } :=
  ⟨(resolution_failure_no_side_effects failResolver cloneFactory tagUnderlying 0 0 newT
      reqPort (.base "no such host") rfl).2.2.1,
   (resolution_failure_no_side_effects failResolver cloneFactory tagUnderlying 0 0 newT
      reqPort (.base "no such host") rfl).2.2.2 { tag := 7, closed := false } rfl⟩

end S3Transport

namespace S3Transport

/-- C4: on successful resolution, `RoundTrip` dispatches a copy of the
original request in which the connection target (`URL.Host`) is rewritten
to the selected IP while the `Host` header carries the original symbolic
hostname; scheme, path and body are carried over from the original, and
the request object of the caller is returned unmutated (the rewrite happened on
a clone). -/
theorem dispatch_rewrites_clone
    (resolver : String → Except GoError (List IP)) (factory : Nat → Transport)
    (underlying : Transport → Request → Except GoError Response)
    (randv now : Nat) (st : TState) (req : Request) (ips0 : List IP) (ip : IP)
    (hres : resolver req.url.Hostname = .ok ips0)
    (hip : (AddAndGet st.hostIPs now req.url.Hostname ips0).1.get? randv = some ip) :
    ∃ d, (roundTrip resolver factory underlying randv now st req).dispatched = some d ∧
      d.Host = req.url.Hostname ∧
      d.url.Host = ip ∧
      d.url.Scheme = req.url.Scheme ∧
      d.url.Path = req.url.Path ∧
      d.body = req.body ∧
      (roundTrip resolver factory underlying randv now st req).reqAfter = req := by
  rw [roundTrip_ok resolver factory underlying randv now st req ips0 ip hres hip]
  exact ⟨_, rfl, rfl, rfl, rfl, rfl, rfl, rfl⟩

/-- Witness for C4 on a concrete request carrying a port and a body. -/
theorem dispatch_rewrites_clone_witness :
    ∃ d, (roundTrip oneIPResolver cloneFactory tagUnderlying 0 0 newT reqPort).dispatched =
        some d ∧
      d.Host = reqPort.url.Hostname ∧
      d.url.Host = "203.0.113.5" ∧
      d.url.Scheme = reqPort.url.Scheme ∧
      d.url.Path = reqPort.url.Path ∧
      d.body = reqPort.body ∧
      (roundTrip oneIPResolver cloneFactory tagUnderlying 0 0 newT reqPort).reqAfter =
        reqPort :=
  dispatch_rewrites_clone oneIPResolver cloneFactory tagUnderlying 0 0 newT reqPort
    ["203.0.113.5"] "203.0.113.5" rfl rfl

/-- C5: the connection target placed in the dispatched request is always an
element of the merged IP set returned by `AddAndGet`, and enumerating the
dispatch over every generator outcome `v < len ips` reproduces the merged
set exactly — each position of the set is selected by exactly one outcome,
so a uniform `rand.Intn(len(ips))` selects each IP with equal probability. -/
theorem uniform_ip_selection
    (resolver : String → Except GoError (List IP)) (factory : Nat → Transport)
    (underlying : Transport → Request → Except GoError Response)
    (now : Nat) (st : TState) (req : Request) (ips0 : List IP)
    (hres : resolver req.url.Hostname = .ok ips0) :
    (∀ randv, randv < (AddAndGet st.hostIPs now req.url.Hostname ips0).1.length →
      dispatchTarget (roundTrip resolver factory underlying randv now st req) ∈
        (AddAndGet st.hostIPs now req.url.Hostname ips0).1) ∧
    (List.range (AddAndGet st.hostIPs now req.url.Hostname ips0).1.length).map
        (fun v => dispatchTarget (roundTrip resolver factory underlying v now st req)) =
      (AddAndGet st.hostIPs now req.url.Hostname ips0).1 := by
  have key : ∀ v, (hv : v < (AddAndGet st.hostIPs now req.url.Hostname ips0).1.length) →
      dispatchTarget (roundTrip resolver factory underlying v now st req) =
        (AddAndGet st.hostIPs now req.url.Hostname ips0).1[v] := by
    intro v hv
    have hip : (AddAndGet st.hostIPs now req.url.Hostname ips0).1.get? v =
        some ((AddAndGet st.hostIPs now req.url.Hostname ips0).1[v]) := by
      rw [List.get?_eq_getElem?, List.getElem?_eq_getElem hv]
    rw [roundTrip_ok resolver factory underlying v now st req ips0 _ hres hip]
    rfl
  constructor
  · intro randv hr
    rw [key randv hr]
    exact List.getElem_mem hr
  · apply List.ext_getElem
    · simp
    · intro i h1 h2
      simp only [List.getElem_map, List.getElem_range]
      exact key i h2

/-- Witness for C5: with a one-address resolver every dispatch targets that
address and the enumeration over outcomes reproduces the merged set. -/
theorem uniform_ip_selection_witness :
    (∀ randv, randv < (AddAndGet newT.hostIPs 0 reqPort.url.Hostname
        ["203.0.113.5"]).1.length →
      dispatchTarget (roundTrip oneIPResolver cloneFactory tagUnderlying randv 0 newT reqPort) ∈
        (AddAndGet newT.hostIPs 0 reqPort.url.Hostname ["203.0.113.5"]).1) ∧
    (List.range (AddAndGet newT.hostIPs 0 reqPort.url.Hostname ["203.0.113.5"]).1.length).map
        (fun v => dispatchTarget
          (roundTrip oneIPResolver cloneFactory tagUnderlying v 0 newT reqPort)) =
      (AddAndGet newT.hostIPs 0 reqPort.url.Hostname ["203.0.113.5"]).1 :=
  uniform_ip_selection oneIPResolver cloneFactory tagUnderlying 0 newT reqPort
    ["203.0.113.5"] rfl

/-- C6: after `AddAndGet(k, v1)` followed — after any interleaved sequence
of further `AddAndGet` calls — by `AddAndGet(k, v2)`, the set returned by
the second call contains every element of `v1` and of `v2` and has no
duplicate IPs. -/
theorem cache_merge_superset_nodup (m : ExpiringMap) (now1 now2 : Nat) (k : String)
    (v1 v2 : List IP) (ops : List (Nat × String × List IP)) :
    (∀ x, x ∈ v1 ∨ x ∈ v2 →
      x ∈ (AddAndGet (applyAdds (AddAndGet m now1 k v1).2 ops) now2 k v2).1) ∧
    (AddAndGet (applyAdds (AddAndGet m now1 k v1).2 ops) now2 k v2).1.Nodup := by
  constructor
  · intro x hx
    rw [AddAndGet_fst, mem_mergeUniqueIPs]
    rcases hx with hx1 | hx2
    · left
      apply mem_valuesOf_applyAdds
      rw [valuesOf_AddAndGet_self, mem_mergeUniqueIPs]
      exact Or.inr hx1
    · exact Or.inr hx2
  · rw [AddAndGet_fst]
    exact nodup_mergeUniqueIPs _ _

/-- Witness for C6: a value added first survives an interleaved add of a
second value and reappears, deduplicated, in the final returned set. -/
theorem cache_merge_superset_nodup_witness :
    "203.0.113.5" ∈ (AddAndGet (applyAdds (AddAndGet { elems := [] } 1 "h"
        ["203.0.113.5"]).2 [(2, "h", ["203.0.113.6"])]) 3 "h" ["203.0.113.7"]).1 ∧
    (AddAndGet (applyAdds (AddAndGet { elems := [] } 1 "h"
        ["203.0.113.5"]).2 [(2, "h", ["203.0.113.6"])]) 3 "h" ["203.0.113.7"]).1.Nodup :=
  ⟨(cache_merge_superset_nodup { elems := [] } 1 3 "h" ["203.0.113.5"] ["203.0.113.7"]
      [(2, "h", ["203.0.113.6"])]).1 "203.0.113.5" (Or.inl (by decide)),
   (cache_merge_superset_nodup { elems := [] } 1 3 "h" ["203.0.113.5"] ["203.0.113.7"]
      [(2, "h", ["203.0.113.6"])]).2⟩

/-- C7: on a successfully resolved request, the returned outcome is
literally the value produced by the delegated pooled transport on the
rewritten request — whatever response or error the delegate yields is
passed through verbatim, with no wrapping and no error introduced by this
layer. -/
theorem delegate_passthrough_verbatim
    (resolver : String → Except GoError (List IP)) (factory : Nat → Transport)
    (underlying : Transport → Request → Except GoError Response)
    (randv now : Nat) (st : TState) (req : Request) (ips0 : List IP) (ip : IP)
    (hres : resolver req.url.Hostname = .ok ips0)
    (hip : (AddAndGet st.hostIPs now req.url.Hostname ips0).1.get? randv = some ip) :
    ∃ rt d, (roundTrip resolver factory underlying randv now st req).dispatched = some d ∧
      lookupA (roundTrip resolver factory underlying randv now st req).state.hostRTs
        req.url.Hostname = some rt ∧
      (roundTrip resolver factory underlying randv now st req).outcome =
        some (underlying rt d) := by
  rw [roundTrip_ok resolver factory underlying randv now st req ips0 ip hres hip]
  exact ⟨_, _, rfl, hostRoundTripper_lookup_self factory _ _, rfl⟩

/-- Witness for C7: with a delegate that answers errors, the error comes
back verbatim (not wrapped). -/
theorem delegate_passthrough_verbatim_witness :
    ∃ rt d, (roundTrip oneIPResolver cloneFactory
        (fun _ _ => .error (.base "dial tcp: refused")) 0 0 newT reqPort).dispatched =
        some d ∧
      lookupA (roundTrip oneIPResolver cloneFactory
        (fun _ _ => .error (.base "dial tcp: refused")) 0 0 newT reqPort).state.hostRTs
        reqPort.url.Hostname = some rt ∧
      (roundTrip oneIPResolver cloneFactory
        (fun _ _ => .error (.base "dial tcp: refused")) 0 0 newT reqPort).outcome =
        some (.error (.base "dial tcp: refused")) :=
  delegate_passthrough_verbatim oneIPResolver cloneFactory
    (fun _ _ => .error (.base "dial tcp: refused")) 0 0 newT reqPort
    ["203.0.113.5"] "203.0.113.5" rfl rfl

end S3Transport

namespace S3Transport

/-- C8: the default transport configuration sets the idle-connection
timeout to exactly the cache expiry window plus twice the sweep cadence,
hence to at least that bound. -/
theorem idleConnTimeout_expiry_window (expireAfter expireLoopEvery hsT ecT : Nat) :
    (httpTransport expireAfter expireLoopEvery hsT ecT).IdleConnTimeout =
      expireAfter + 2 * expireLoopEvery ∧
    expireAfter + 2 * expireLoopEvery ≤
      (httpTransport expireAfter expireLoopEvery hsT ecT).IdleConnTimeout :=
  ⟨rfl, Nat.le_refl _⟩

/-- C9: when resolution succeeds, under the generator contract
`randv < len ips` (which presupposes the merged set non-empty) the
selection indexes within bounds: the call completes without panic and the
dispatched target is a member of the merged set.  There is no guard for
the empty case: a resolver success with zero IPs against the fresh empty
cache reaches `rand.Intn(0)`, modelled as the panic outcome `none`, for
every generator value. -/
theorem ip_selection_bounds_safety
    (resolver : String → Except GoError (List IP)) (factory : Nat → Transport)
    (underlying : Transport → Request → Except GoError Response)
    (randv now : Nat) (st : TState) (req : Request) (ips0 : List IP)
    (hres : resolver req.url.Hostname = .ok ips0)
    (_hne : (AddAndGet st.hostIPs now req.url.Hostname ips0).1 ≠ [])
    (hr : randv < (AddAndGet st.hostIPs now req.url.Hostname ips0).1.length) :
    ((roundTrip resolver factory underlying randv now st req).outcome).isSome = true ∧
    (∃ d, (roundTrip resolver factory underlying randv now st req).dispatched = some d ∧
      d.url.Host ∈ (AddAndGet st.hostIPs now req.url.Hostname ips0).1) ∧
    (∀ randv2 now2 req2,
      (roundTrip emptyResolver factory underlying randv2 now2 newT req2).outcome = none) := by
  have hip : (AddAndGet st.hostIPs now req.url.Hostname ips0).1.get? randv =
      some ((AddAndGet st.hostIPs now req.url.Hostname ips0).1[randv]) := by
    rw [List.get?_eq_getElem?, List.getElem?_eq_getElem hr]
  refine ⟨?_, ?_, ?_⟩
  · rw [roundTrip_ok resolver factory underlying randv now st req ips0 _ hres hip]
    rfl
  · rw [roundTrip_ok resolver factory underlying randv now st req ips0 _ hres hip]
    exact ⟨_, rfl, List.getElem_mem hr⟩
  · intro randv2 now2 req2
    exact roundTrip_empty_panic emptyResolver factory underlying randv2 now2 newT req2
      [] rfl rfl

/-- Witness for C9: a one-address merge dispatches without panic, while a
zero-address resolver success panics for an arbitrary generator value. -/
theorem ip_selection_bounds_safety_witness :
    ((roundTrip oneIPResolver cloneFactory tagUnderlying 0 0 newT reqPort).outcome).isSome =
      true ∧
    (roundTrip emptyResolver cloneFactory tagUnderlying 5 0 newT reqPort2).outcome = none :=
  ⟨(ip_selection_bounds_safety oneIPResolver cloneFactory tagUnderlying 0 0 newT reqPort
      ["203.0.113.5"] rfl (by decide) (by decide)).1,
   (ip_selection_bounds_safety oneIPResolver cloneFactory tagUnderlying 0 0 newT reqPort
      ["203.0.113.5"] rfl (by decide) (by decide)).2.2 5 0 reqPort2⟩

theorem roundTrip_ok_state
    (resolver : String → Except GoError (List IP)) (factory : Nat → Transport)
    (underlying : Transport → Request → Except GoError Response)
    (randv now : Nat) (st : TState) (req : Request) (ips0 : List IP) (ip : IP)
    (hres : resolver req.url.Hostname = .ok ips0)
    (hip : (AddAndGet st.hostIPs now req.url.Hostname ips0).1.get? randv = some ip) :
    (∃ rt, lookupA (roundTrip resolver factory underlying randv now st req).state.hostRTs
        req.url.Hostname = some rt) ∧
    lookupA (roundTrip resolver factory underlying randv now st req).state.hostIPs.elems
        req.url.Hostname =
      some { value := (AddAndGet st.hostIPs now req.url.Hostname ips0).1, lastSeen := now } ∧
    (roundTrip resolver factory underlying randv now st req).state.hostIPs =
      (AddAndGet st.hostIPs now req.url.Hostname ips0).2 := by
  rw [roundTrip_ok resolver factory underlying randv now st req ips0 ip hres hip]
  refine ⟨?_, ?_, ?_⟩
  · show ∃ rt, lookupA (hostRoundTripper factory
        (TState.mk st.hostRTs st.factoryCalls
          (AddAndGet st.hostIPs now req.url.Hostname ips0).2)
        req.url.Hostname).2.hostRTs req.url.Hostname = some rt
    exact ⟨_, hostRoundTripper_lookup_self factory _ _⟩
  · show lookupA (hostRoundTripper factory
        (TState.mk st.hostRTs st.factoryCalls
          (AddAndGet st.hostIPs now req.url.Hostname ips0).2)
        req.url.Hostname).2.hostIPs.elems req.url.Hostname = _
    rw [hostRoundTripper_hostIPs]
    show lookupA (setA st.hostIPs.elems req.url.Hostname _) req.url.Hostname = _
    exact lookupA_setA_self _ _ _
  · show (hostRoundTripper factory
        (TState.mk st.hostRTs st.factoryCalls
          (AddAndGet st.hostIPs now req.url.Hostname ips0).2)
        req.url.Hostname).2.hostIPs = _
    exact hostRoundTripper_hostIPs factory _ _

theorem roundTrip_second_reuse
    (resolver : String → Except GoError (List IP)) (factory : Nat → Transport)
    (underlying : Transport → Request → Except GoError Response)
    (randv2 now2 : Nat) (st2 : TState) (req2 : Request) (ips0 : List IP) (ip2 : IP)
    (rtx : Transport) (e : CacheEntry)
    (hres2 : resolver req2.url.Hostname = .ok ips0)
    (hip2 : (AddAndGet st2.hostIPs now2 req2.url.Hostname ips0).1.get? randv2 = some ip2)
    (hreg : lookupA st2.hostRTs req2.url.Hostname = some rtx)
    (hcache : lookupA st2.hostIPs.elems req2.url.Hostname = some e) :
    (roundTrip resolver factory underlying randv2 now2 st2 req2).state.factoryCalls =
      st2.factoryCalls ∧
    (roundTrip resolver factory underlying randv2 now2 st2 req2).state.hostRTs =
      st2.hostRTs ∧
    (roundTrip resolver factory underlying randv2 now2 st2 req2).state.hostIPs.elems.length =
      st2.hostIPs.elems.length := by
  rw [roundTrip_ok resolver factory underlying randv2 now2 st2 req2 ips0 ip2 hres2 hip2]
  have hreg2 : lookupA (TState.mk st2.hostRTs st2.factoryCalls
      (AddAndGet st2.hostIPs now2 req2.url.Hostname ips0).2).hostRTs req2.url.Hostname =
      some rtx := hreg
  rw [hostRoundTripper_of_lookup factory _ req2.url.Hostname rtx hreg2]
  refine ⟨rfl, rfl, ?_⟩
  show (setA st2.hostIPs.elems req2.url.Hostname _).length = st2.hostIPs.elems.length
  exact length_setA_of_some _ _ _ e hcache

/-- C10: the hostname used both as the cache key and as the registry and
TLS-identity key is the port-stripped `req.URL.Hostname()`, the rewritten
connection target is the bare selected IP string with no port appended (so
an explicit port of the original URL is dropped from the dispatched
request), and a second request to the same hostname on a different port
shares the cache entry and the pooled transport: no further factory call,
registry unchanged, cache entry count unchanged. -/
theorem hostname_port_dropped_shared_key
    (resolver : String → Except GoError (List IP)) (factory : Nat → Transport)
    (underlying : Transport → Request → Except GoError Response)
    (randv now : Nat) (st : TState) (req req2 : Request)
    (s ds ds2 : List Char) (ips0 : List IP) (ip : IP)
    (hu : req.url.Host.data = s ++ ':' :: ds)
    (hu2 : req2.url.Host.data = s ++ ':' :: ds2)
    (hs : ∀ c ∈ s, (c == ':') = false)
    (hd : ds.all isPortDigit = true) (hd2 : ds2.all isPortDigit = true)
    (hb : ¬(s.head? = some '[' ∧ s.getLast? = some ']'))
    (hres : resolver (String.mk s) = .ok ips0)
    (hip : (AddAndGet st.hostIPs now (String.mk s) ips0).1.get? randv = some ip) :
    req.url.Hostname = String.mk s ∧
    req2.url.Hostname = String.mk s ∧
    (∃ d, (roundTrip resolver factory underlying randv now st req).dispatched = some d ∧
      d.url.Host = ip) ∧
    (∃ rt, lookupA (roundTrip resolver factory underlying randv now st req).state.hostRTs
        (String.mk s) = some rt) ∧
    (∃ e, lookupA
        (roundTrip resolver factory underlying randv now st req).state.hostIPs.elems
        (String.mk s) = some e) ∧
    (∀ randv2 now2 ip2,
      (AddAndGet (roundTrip resolver factory underlying randv now st req).state.hostIPs
          now2 (String.mk s) ips0).1.get? randv2 = some ip2 →
      (roundTrip resolver factory underlying randv2 now2
          (roundTrip resolver factory underlying randv now st req).state
          req2).state.factoryCalls =
        (roundTrip resolver factory underlying randv now st req).state.factoryCalls ∧
      (roundTrip resolver factory underlying randv2 now2
          (roundTrip resolver factory underlying randv now st req).state
          req2).state.hostRTs =
        (roundTrip resolver factory underlying randv now st req).state.hostRTs ∧
      (roundTrip resolver factory underlying randv2 now2
          (roundTrip resolver factory underlying randv now st req).state
          req2).state.hostIPs.elems.length =
        (roundTrip resolver factory underlying randv now st req).state.hostIPs.elems.length) := by
  have hn1 : req.url.Hostname = String.mk s := Hostname_strip_port req.url s ds hu hs hd hb
  have hn2 : req2.url.Hostname = String.mk s := Hostname_strip_port req2.url s ds2 hu2 hs hd2 hb
  have hres1 : resolver req.url.Hostname = .ok ips0 := by rw [hn1]; exact hres
  have hip1 : (AddAndGet st.hostIPs now req.url.Hostname ips0).1.get? randv = some ip := by
    rw [hn1]; exact hip
  have hkeys : req2.url.Hostname = req.url.Hostname := by rw [hn2, hn1]
  obtain ⟨⟨rt1, hreg1⟩, hcache1, -⟩ :=
    roundTrip_ok_state resolver factory underlying randv now st req ips0 ip hres1 hip1
  refine ⟨hn1, hn2, ?_, ?_, ?_, ?_⟩
  · rw [roundTrip_ok resolver factory underlying randv now st req ips0 ip hres1 hip1]
    exact ⟨_, rfl, rfl⟩
  · rw [← hn1]
    exact ⟨rt1, hreg1⟩
  · rw [← hn1]
    exact ⟨_, hcache1⟩
  · intro randv2 now2 ip2 hip2
    rw [← hn2] at hip2
    have hres2 : resolver req2.url.Hostname = .ok ips0 := by rw [hn2]; exact hres
    have hreg2 : lookupA
        (roundTrip resolver factory underlying randv now st req).state.hostRTs
        req2.url.Hostname = some rt1 := by
      rw [hkeys]
      exact hreg1
    have hcache2 : lookupA
        (roundTrip resolver factory underlying randv now st req).state.hostIPs.elems
        req2.url.Hostname =
        some { value := (AddAndGet st.hostIPs now req.url.Hostname ips0).1
               lastSeen := now } := by
      rw [hkeys]
      exact hcache1
    exact roundTrip_second_reuse resolver factory underlying randv2 now2 _ req2 ips0 ip2
      rt1 _ hres2 hip2 hreg2 hcache2

/-- Witness for C10: the two concrete requests to ports 9000 and 9001 of
the same hostname resolve to the same key, and the second dispatch reuses
the registry of the first. -/
theorem hostname_port_dropped_shared_key_witness :
    reqPort.url.Hostname = "bucket.example.com" ∧
    reqPort2.url.Hostname = "bucket.example.com" ∧
    (roundTrip oneIPResolver cloneFactory tagUnderlying 0 1
        (roundTrip oneIPResolver cloneFactory tagUnderlying 0 0 newT reqPort).state
        reqPort2).state.hostRTs =
      (roundTrip oneIPResolver cloneFactory tagUnderlying 0 0 newT reqPort).state.hostRTs :=
  ⟨(hostname_port_dropped_shared_key oneIPResolver cloneFactory tagUnderlying 0 0 newT
      reqPort reqPort2 "bucket.example.com".toList "9000".toList "9001".toList
      ["203.0.113.5"] "203.0.113.5" (by decide) (by decide) (by decide) (by decide)
      (by decide) (by decide) rfl (by decide)).1,
   (hostname_port_dropped_shared_key oneIPResolver cloneFactory tagUnderlying 0 0 newT
      reqPort reqPort2 "bucket.example.com".toList "9000".toList "9001".toList
      ["203.0.113.5"] "203.0.113.5" (by decide) (by decide) (by decide) (by decide)
      (by decide) (by decide) rfl (by decide)).2.1,
   ((hostname_port_dropped_shared_key oneIPResolver cloneFactory tagUnderlying 0 0 newT
      reqPort reqPort2 "bucket.example.com".toList "9000".toList "9001".toList
      ["203.0.113.5"] "203.0.113.5" (by decide) (by decide) (by decide) (by decide)
      (by decide) (by decide) rfl (by decide)).2.2.2.2.2 0 1 "203.0.113.5"
      (by decide)).2.1⟩

end S3Transport
